import Mathlib

/-!
Shallow embedding of the quote-matching and trade-execution logic of the
trading-game repository.

Embedded source:
  * the `MarketPrice` / `Trade` document model (src/types/trading.ts);
  * the transactional service operations `executeTrade`, `cancelMarketPrice`,
    `updateMarketPrice`, `saveMarketPrice` (src/services/tradingService.ts,
    the revision that contains `executeTrade`);
  * the page-level handlers `handleSubmit`, `handleNewQuote`, the
    `userActivePrice` sync effect, and the corrected page-level
    `executeTrade` (the Trading-page revision with the fixed hit/lift
    mapping, whose comments read "FIXED: ... When hitting a bid, we use the
    bid amount").

Modelling conventions:
  * Firestore documents are association lists `List (DocId × doc)`; document
    ids are `Nat` and Firestore's random fresh-id generation is modelled by a
    `nextId` counter in the store (ids are opaque in the source; only
    freshness matters).
  * `serverTimestamp()` is an explicit `now : Nat` parameter.
  * Firestore's `runTransaction` stages writes and commits them only when the
    transaction body does not throw; a body that throws commits nothing.
    Accordingly a transactional operation is a function
    `Store → Except Error Store`: the `.error` case is an aborted
    transaction, leaving the store untouched.
  * JavaScript numbers holding prices/amounts are `Int` (the UI parses all
    numeric inputs with `parseInt`); `Number.MAX_VALUE` is the exact integer
    `(2 ^ 53 - 1) * 2 ^ 971`.
  * The ad-hoc fields `lastTradeId` / `executedTradeId` that `executeTrade`'s
    update adds to a quote document are `Option DocId` fields (`none`
    modelling an absent key in the schemaless document).
-/

set_option maxRecDepth 100000

/-- Document ids assigned by the storage layer. -/
abbrev DocId := Nat

/-- Opaque user id supplied by the identity collaborator (`user.uid`). -/
abbrev UserId := String

/-- `status` field of a `MarketPrice` document: `'active' | 'canceled' | 'executed'`. -/
inductive Status
  | active
  | canceled
  | executed
deriving DecidableEq, Repr

/-- `side` of a trade: `'hit' | 'lift'`. -/
inductive Side
  | hit
  | lift
deriving DecidableEq, Repr

/-- The `MarketPrice` document (src/types/trading.ts), plus the two ad-hoc
back-reference keys that `tradingService.executeTrade` writes into the
document (`lastTradeId` on a partial fill, `executedTradeId` on a full fill);
`none` models the key being absent. -/
structure MarketPrice where
  userId : UserId
  symbol : String
  bidPrice : Int
  bidAmount : Int
  offerPrice : Int
  offerAmount : Int
  timestamp : Nat
  status : Status
  lastTradeId : Option DocId := none
  executedTradeId : Option DocId := none
deriving DecidableEq, Repr

/-- The fields of a `Trade` supplied by the caller of
`tradingService.executeTrade` (`Omit<Trade, 'id'>` with the `timestamp`
still null; the constant `status: 'executed'` field carries no information
and is omitted). -/
structure TradeReq where
  symbol : String
  price : Int
  amount : Int
  buyerId : UserId
  sellerId : UserId
  marketPriceId : DocId
  side : Side
deriving DecidableEq, Repr

/-- A committed `Trade` document: the request fields plus the
server-assigned timestamp. -/
structure TradeDoc extends TradeReq where
  timestamp : Nat
deriving DecidableEq, Repr

/-- `role` field of a denormalized per-user trade-history entry. -/
inductive Role
  | buyer
  | seller
deriving DecidableEq, Repr

/-- A document of a `users/{uid}/trades` subcollection:
`{ tradeId, role, ...tradeData }`. -/
structure UserTradeEntry where
  tradeId : DocId
  role : Role
  trade : TradeDoc
deriving DecidableEq, Repr

/-- The relevant slice of the Firestore database: the `marketPrices`
collection, the `trades` collection, the per-user `users/{uid}/trades`
subcollections (flattened to (owner, entry) pairs), and the fresh-id
counter standing in for Firestore's id generation. -/
structure Store where
  marketPrices : List (DocId × MarketPrice)
  trades : List (DocId × TradeDoc)
  userTrades : List (UserId × UserTradeEntry)
  nextId : DocId
deriving DecidableEq, Repr

/-- Look a document up by id in a collection. -/
def getDocIn {α : Type} (l : List (DocId × α)) (i : DocId) : Option α :=
  (l.find? (fun p => p.1 == i)).map (fun p => p.2)

/-- Overwrite the document stored under id `i` (no-op when `i` is absent;
every caller guards with `getDocIn`). -/
def setDocIn {α : Type} (l : List (DocId × α)) (i : DocId) (a : α) : List (DocId × α) :=
  l.map (fun p => if p.1 == i then (i, a) else p)

namespace TradingService

/-- Error raised inside `executeTrade`'s transaction body: the quote document
is gone (`'Market price no longer exists'`) or no longer `'active'`
(`'Market price is no longer active'`). Both are the spec's `StaleQuote`. -/
inductive TradeError
  | staleQuoteMissing
  | staleQuoteInactive
deriving DecidableEq, Repr

/-- `const tradeData = { ...trade, timestamp: serverTimestamp(), ... }`. -/
def mkTradeDoc (tr : TradeReq) (now : Nat) : TradeDoc :=
  { tr with timestamp := now }

/-- `side === 'hit' ? marketPrice.bidAmount : marketPrice.offerAmount`. -/
def availableFor (side : Side) (mp : MarketPrice) : Int :=
  match side with
  | .hit => mp.bidAmount
  | .lift => mp.offerAmount

/-- The quote-document mutation staged by `executeTrade`'s transaction:
if `remainingAmount > 0`, update the matched side's amount, the timestamp
and `lastTradeId`; otherwise set `status: 'executed'`, the timestamp and
`executedTradeId`. -/
def updatedQuote (mp : MarketPrice) (side : Side) (amount : Int) (tid : DocId)
    (now : Nat) : MarketPrice :=
  let remainingAmount := availableFor side mp - amount
  if remainingAmount > 0 then
    match side with
    | .hit => { mp with bidAmount := remainingAmount, timestamp := now, lastTradeId := some tid }
    | .lift => { mp with offerAmount := remainingAmount, timestamp := now, lastTradeId := some tid }
  else
    { mp with status := .executed, timestamp := now, executedTradeId := some tid }

/-- The store after the four staged writes of `executeTrade`'s transaction
commit: the mutated quote, the appended `Trade`, and the buyer's and
seller's trade-history entries. -/
def committedStore (st : Store) (tr : TradeReq) (mp : MarketPrice) (now : Nat) : Store :=
  let tid := st.nextId
  let td := mkTradeDoc tr now
  { marketPrices := setDocIn st.marketPrices tr.marketPriceId (updatedQuote mp tr.side tr.amount tid now),
    trades := st.trades ++ [(tid, td)],
    userTrades := st.userTrades ++ [(tr.buyerId, ⟨tid, .buyer, td⟩), (tr.sellerId, ⟨tid, .seller, td⟩)],
    nextId := st.nextId + 1 }

/-- `tradingService.executeTrade`: inside `runTransaction`, re-read the
quote (must exist and be `'active'`), then stage the trade append, the
quote mutation, and the two per-user history appends; the commit applies
all staged writes, an exception aborts with nothing applied. Note the body
performs no validation of `trade.amount`. -/
def executeTrade (st : Store) (tr : TradeReq) (now : Nat) : Except TradeError Store :=
  match getDocIn st.marketPrices tr.marketPriceId with
  | none => .error .staleQuoteMissing
  | some mp =>
    if mp.status = .active then
      .ok (committedStore st tr mp now)
    else
      .error .staleQuoteInactive

/-- The store as left by a call to `executeTrade`: unchanged when the
transaction aborted, the committed store when it succeeded. -/
def runExecuteTrade (st : Store) (tr : TradeReq) (now : Nat) : Store :=
  match executeTrade st tr now with
  | .ok st2 => st2
  | .error _ => st

/-- Error of the plain (non-transactional) document updates: `updateDoc`
rejects a write to a document that does not exist. -/
inductive UpdateError
  | missingDoc
deriving DecidableEq, Repr

/-- `tradingService.cancelMarketPrice`: `updateDoc(docRef, { status:
'canceled', timestamp: serverTimestamp() })` — unconditionally, with no
check of the quote's current status. -/
def cancelMarketPrice (st : Store) (i : DocId) (now : Nat) : Except UpdateError Store :=
  match getDocIn st.marketPrices i with
  | none => .error .missingDoc
  | some mp =>
    .ok { st with
          marketPrices := setDocIn st.marketPrices i
            { mp with status := .canceled, timestamp := now } }

/-- `tradingService.updateMarketPrice`: merge the caller-supplied document
data plus a fresh server timestamp into an existing document. The caller
passes the merge (which keys it writes differs per call site: the quote
form omits the back-reference keys, the trade flow spreads a full
snapshot). -/
def updateMarketPrice (st : Store) (i : DocId) (merge : MarketPrice → MarketPrice)
    (now : Nat) : Except UpdateError Store :=
  match getDocIn st.marketPrices i with
  | none => .error .missingDoc
  | some old =>
    .ok { st with
          marketPrices := setDocIn st.marketPrices i { merge old with timestamp := now } }

/-- `tradingService.saveMarketPrice`: `addDoc` of the quote data with
`status: 'active'` and a server timestamp, returning the fresh id. -/
def saveMarketPrice (st : Store) (data : MarketPrice) (now : Nat) : DocId × Store :=
  (st.nextId,
   { st with
     marketPrices := st.marketPrices ++ [(st.nextId, { data with status := .active, timestamp := now })],
     nextId := st.nextId + 1 })

end TradingService

namespace TradingPage

/-- The quote-entry form (`MarketPriceFormData` in src/types/trading.ts). -/
structure MarketPriceFormData where
  symbol : String
  bidPrice : Int
  bidAmount : Int
  offerPrice : Int
  offerAmount : Int
deriving DecidableEq, Repr

/-- The component state relevant to quote submission: the tracked id of the
user's quote document (`currentQuote`) and the shared store. -/
structure PageState where
  currentQuote : Option DocId
  store : Store
deriving DecidableEq, Repr

/-- The validation errors `handleSubmit` surfaces before writing, plus the
storage error when an update targets a missing document. -/
inductive SubmitError
  | notAuthenticated
  | missingFields
  | bidGeOffer
  | bidCrossesMarket
  | offerCrossesMarket
  | missingQuoteDoc
deriving DecidableEq, Repr

/-- JavaScript's `Number.MAX_VALUE` as an exact integer: the value of
`(2 ^ 53 - 1) * 2 ^ 971`, written as a literal so that kernel evaluation
does not unfold a 971-deep power recursion. -/
def numberMaxValue : Int := 179769313486231570814527423731704356798070567525844996598917476803157260780028538760589558632766878171540458953514382464234321326889464182768467546703537516986049910576551282076245490090389328944075868508455133942304583236903222948165808559332123348274797826204144723168738177180919299881250404026184124858368

/-- `activeOfferPrices`: offer prices of other users' active quotes with a
positive offer, read from the page's `marketPrices` snapshot. -/
def otherActiveOfferPrices (uid : UserId) (st : Store) : List Int :=
  ((st.marketPrices.map Prod.snd).filter
    (fun p => decide (p.status = .active ∧ p.userId ≠ uid ∧ 0 < p.offerPrice))).map
    (fun p => p.offerPrice)

/-- `activeBidPrices`: bid prices of other users' active quotes with a
positive bid. -/
def otherActiveBidPrices (uid : UserId) (st : Store) : List Int :=
  ((st.marketPrices.map Prod.snd).filter
    (fun p => decide (p.status = .active ∧ p.userId ≠ uid ∧ 0 < p.bidPrice))).map
    (fun p => p.bidPrice)

/-- `prices.length > 0 ? Math.min(...prices) : d` (all listed prices are
positive, hence below `Number.MAX_VALUE`, so folding the default in is the
same value). -/
def lowestOf (d : Int) : List Int → Int
  | [] => d
  | x :: xs => min x (lowestOf d xs)

/-- `prices.length > 0 ? Math.max(...prices) : d` (dually to `lowestOf`). -/
def highestOf (d : Int) : List Int → Int
  | [] => d
  | x :: xs => max x (highestOf d xs)

/-- The document data `handleSubmit` writes:
`{ ...formData, userId, status: 'active', timestamp }`. -/
def formDoc (uid : UserId) (form : MarketPriceFormData) (now : Nat) : MarketPrice :=
  { userId := uid, symbol := form.symbol,
    bidPrice := form.bidPrice, bidAmount := form.bidAmount,
    offerPrice := form.offerPrice, offerAmount := form.offerAmount,
    timestamp := now, status := .active }

/-- Merging the submitted quote data into an existing document: every field
of the form plus `userId`, `status: 'active'` and the timestamp are
overwritten; the back-reference keys are not in the written data and
survive. -/
def mergeFormDoc (old : MarketPrice) (uid : UserId) (form : MarketPriceFormData)
    (now : Nat) : MarketPrice :=
  { old with
    userId := uid, symbol := form.symbol,
    bidPrice := form.bidPrice, bidAmount := form.bidAmount,
    offerPrice := form.offerPrice, offerAmount := form.offerAmount,
    timestamp := now, status := .active }

/-- `handleSubmit` (the Trading-page revision with the anti-cross-the-market
checks): validate the caller, the form fields, `bid < offer`, and the two
crossing conditions against the book snapshot; then either update the
tracked quote document in place (`currentQuote` set) or create a fresh
document and start tracking it. Every error path returns the state
untouched. -/
def handleSubmit (ps : PageState) (user : Option UserId) (form : MarketPriceFormData)
    (now : Nat) : PageState × Option SubmitError :=
  match user with
  | none => (ps, some .notAuthenticated)
  | some uid =>
    if form.symbol = "" ∨ form.bidPrice ≤ 0 ∨ form.offerPrice ≤ 0 then
      (ps, some .missingFields)
    else if form.bidPrice ≥ form.offerPrice then
      (ps, some .bidGeOffer)
    else if form.bidPrice ≥ lowestOf numberMaxValue (otherActiveOfferPrices uid ps.store) then
      (ps, some .bidCrossesMarket)
    else if form.offerPrice ≤ highestOf 0 (otherActiveBidPrices uid ps.store) then
      (ps, some .offerCrossesMarket)
    else
      match ps.currentQuote with
      | some qid =>
        match TradingService.updateMarketPrice ps.store qid
          (fun old => mergeFormDoc old uid form now) now with
        | .error _ => (ps, some .missingQuoteDoc)
        | .ok st2 => ({ ps with store := st2 }, none)
      | none =>
        let saved := TradingService.saveMarketPrice ps.store (formDoc uid form now) now
        ({ currentQuote := some saved.1, store := saved.2 }, none)

/-- `handleNewQuote`: reset the form and stop tracking the current quote
(`setCurrentQuote(null)`); the active quote document itself is not
touched. -/
def handleNewQuote (ps : PageState) : PageState :=
  { ps with currentQuote := none }

/-- The `userActivePrice` memo: the first of the user's quotes with
`status = 'active'` in the snapshot. -/
def userActivePrice (uid : UserId) (st : Store) : Option (DocId × MarketPrice) :=
  st.marketPrices.find? (fun p => decide (p.2.userId = uid ∧ p.2.status = .active))

/-- The effect that re-points `currentQuote` at the user's active quote
whenever one exists in the snapshot (it does nothing when none does). -/
def syncActiveQuote (uid : UserId) (ps : PageState) : PageState :=
  match userActivePrice uid ps.store with
  | some p => { ps with currentQuote := some p.1 }
  | none => ps

/-- The page-level events that drive quote submission. -/
inductive PageEvent
  | submit (form : MarketPriceFormData) (now : Nat)
  | newQuote
  | sync
deriving DecidableEq, Repr

/-- One page event applied to the component state. -/
def pageStep (uid : UserId) (ps : PageState) (e : PageEvent) : PageState :=
  match e with
  | .submit form now => (handleSubmit ps (some uid) form now).1
  | .newQuote => handleNewQuote ps
  | .sync => syncActiveQuote uid ps

/-- A sequence of page events applied in order. -/
def pageRun (uid : UserId) (ps : PageState) : List PageEvent → PageState
  | [] => ps
  | e :: es => pageRun uid (pageStep uid ps e) es

/-- The quotes of the book that are `active` for the given owner and
symbol. -/
def activeQuotesOf (uid : UserId) (symbol : String) (st : Store) :
    List (DocId × MarketPrice) :=
  st.marketPrices.filter
    (fun p => decide (p.2.userId = uid ∧ p.2.symbol = symbol ∧ p.2.status = .active))

/-- Errors of the page-level `executeTrade` before it reaches the storage
layer. -/
inductive TradeRequestError
  | notAuthenticated
  | nonPositiveAmount
  | exceedsAvailable
deriving DecidableEq, Repr

/-- What the page-level `executeTrade` goes on to perform once validation
passes: the full quote document it writes with
`tradingService.updateMarketPrice` and the trade request it hands to
`tradingService.executeTrade`. -/
structure TradeRequestActions where
  quoteUpdate : MarketPrice
  tradeReq : TradeReq
deriving DecidableEq, Repr

/-- The corrected page-level `executeTrade`: validate the requester and the
amount against the snapshot (`availableAmount` is `bidAmount` for `hit`,
`offerAmount` for `lift`), price the trade at `bidPrice` for `hit` /
`offerPrice` for `lift`, make the quote owner the buyer on a `hit` and the
requester the buyer on a `lift`, and stage the partial-fill or full-fill
quote write. -/
def executeTrade (user : Option UserId) (mpId : DocId) (mp : MarketPrice)
    (side : Side) (validatedAmount : Int) :
    Except TradeRequestError TradeRequestActions :=
  match user with
  | none => .error .notAuthenticated
  | some uid =>
    let availableAmount := match side with
      | .hit => mp.bidAmount
      | .lift => mp.offerAmount
    if validatedAmount ≤ 0 then
      .error .nonPositiveAmount
    else if validatedAmount > availableAmount then
      .error .exceedsAvailable
    else
      let tradePrice := match side with
        | .hit => mp.bidPrice
        | .lift => mp.offerPrice
      let trade : TradeReq :=
        { symbol := mp.symbol, price := tradePrice, amount := validatedAmount,
          buyerId := (match side with | .hit => mp.userId | .lift => uid),
          sellerId := (match side with | .hit => uid | .lift => mp.userId),
          marketPriceId := mpId, side := side }
      let remainingAmount := availableAmount - validatedAmount
      let upd :=
        if remainingAmount > 0 then
          match side with
          | .hit => { mp with bidAmount := remainingAmount }
          | .lift => { mp with offerAmount := remainingAmount }
        else
          { mp with status := .executed }
      .ok { quoteUpdate := upd, tradeReq := trade }

/-- Errors surfaced by the full page-level trade flow. -/
inductive FlowError
  | request (e : TradeRequestError)
  | update (e : TradingService.UpdateError)
  | trade (e : TradingService.TradeError)
deriving DecidableEq, Repr

/-- The full trade flow the page runs: validate and build the writes, then
`await tradingService.updateMarketPrice(...)` (a committed write of the
updated snapshot, spread over the document), then
`await tradingService.executeTrade(trade)`. The two storage calls are two
separate commits: a failure of the second leaves the first in place. -/
def executeTradeFlow (user : Option UserId) (mpId : DocId) (snapshot : MarketPrice)
    (side : Side) (amt : Int) (st : Store) (now : Nat) : Store × Option FlowError :=
  match executeTrade user mpId snapshot side amt with
  | .error e => (st, some (.request e))
  | .ok acts =>
    match TradingService.updateMarketPrice st mpId (fun _ => acts.quoteUpdate) now with
    | .error e => (st, some (.update e))
    | .ok st1 =>
      match TradingService.executeTrade st1 acts.tradeReq now with
      | .error e => (st1, some (.trade e))
      | .ok st2 => (st2, none)

end TradingPage

/-! Helper lemmas about the store primitives and the snapshot scans. -/

theorem setDocIn_map_fst {α : Type} (l : List (DocId × α)) (i : DocId) (a : α) :
    (setDocIn l i a).map Prod.fst = l.map Prod.fst := by
  induction l with
  | nil => rfl
  | cons p t ih =>
    by_cases hp : p.1 = i
    · simp [setDocIn, hp] at ih ⊢
      exact ih
    · simp [setDocIn, hp, Nat.beq_eq_true_eq] at ih ⊢
      exact ih

theorem getDocIn_cons {α : Type} (p : DocId × α) (t : List (DocId × α)) (i : DocId) :
    getDocIn (p :: t) i = if p.1 = i then some p.2 else getDocIn t i := by
  by_cases hp : p.1 = i
  · simp [getDocIn, List.find?, beq_iff_eq.mpr hp, hp]
  · simp [getDocIn, List.find?, beq_eq_false_iff_ne.mpr hp, hp]

theorem setDocIn_cons {α : Type} (p : DocId × α) (t : List (DocId × α)) (i : DocId) (a : α) :
    setDocIn (p :: t) i a = (if p.1 = i then (i, a) else p) :: setDocIn t i a := by
  by_cases hp : p.1 = i <;> simp [setDocIn, hp]

theorem getDocIn_setDocIn {α : Type} (l : List (DocId × α)) (i : DocId) (a : α)
    (h : (getDocIn l i).isSome) : getDocIn (setDocIn l i a) i = some a := by
  induction l with
  | nil => simp [getDocIn] at h
  | cons p t ih =>
    rw [setDocIn_cons]
    by_cases hp : p.1 = i
    · rw [if_pos hp, getDocIn_cons, if_pos rfl]
    · rw [if_neg hp, getDocIn_cons, if_neg hp]
      rw [getDocIn_cons, if_neg hp] at h
      exact ih h

theorem le_highestOf (d x : Int) (l : List Int) (hx : x ∈ l) :
    x ≤ TradingPage.highestOf d l := by
  induction l with
  | nil => cases hx
  | cons y t ih =>
    rcases List.mem_cons.mp hx with h | h
    · subst h; exact le_max_left x _
    · exact le_trans (ih h) (le_max_right _ _)

theorem lowestOf_le (d x : Int) (l : List Int) (hx : x ∈ l) :
    TradingPage.lowestOf d l ≤ x := by
  induction l with
  | nil => cases hx
  | cons y t ih =>
    rcases List.mem_cons.mp hx with h | h
    · subst h; exact min_le_left x _
    · exact le_trans (min_le_right _ _) (ih h)

theorem mem_otherActiveBidPrices (uid : UserId) (st : Store) (p : MarketPrice)
    (hp : p ∈ st.marketPrices.map Prod.snd) (h1 : p.status = .active)
    (h2 : p.userId ≠ uid) (h3 : 0 < p.bidPrice) :
    p.bidPrice ∈ TradingPage.otherActiveBidPrices uid st := by
  refine List.mem_map.mpr ⟨p, List.mem_filter.mpr ⟨hp, ?_⟩, rfl⟩
  simp only [decide_eq_true_eq]
  exact ⟨h1, h2, h3⟩

theorem mem_otherActiveOfferPrices (uid : UserId) (st : Store) (p : MarketPrice)
    (hp : p ∈ st.marketPrices.map Prod.snd) (h1 : p.status = .active)
    (h2 : p.userId ≠ uid) (h3 : 0 < p.offerPrice) :
    p.offerPrice ∈ TradingPage.otherActiveOfferPrices uid st := by
  refine List.mem_map.mpr ⟨p, List.mem_filter.mpr ⟨hp, ?_⟩, rfl⟩
  simp only [decide_eq_true_eq]
  exact ⟨h1, h2, h3⟩

/-! Concrete fixtures used by witnesses and counterexamples: user X's resting
quote `bid 100 x 10 / offer 105 x 10` on NVDA, stored under document id 1. -/

def quoteX : MarketPrice :=
  { userId := "X", symbol := "NVDA", bidPrice := 100, bidAmount := 10,
    offerPrice := 105, offerAmount := 10, timestamp := 0, status := .active }

def storeX : Store :=
  { marketPrices := [(1, quoteX)], trades := [], userTrades := [], nextId := 2 }

/-! Claim theorems. -/

/-- C1: for every trade request the (corrected) page-level `executeTrade`
lets through, `side = hit` makes the quote owner the buyer, the requester
the seller, prices the trade at `bidPrice`, and consumes `bidAmount`
(bounds the amount by it and reduces it on a partial fill); `side = lift`
makes the requester the buyer, the owner the seller, prices at
`offerPrice`, and consumes `offerAmount`. -/
theorem C1_side_role_mapping (uid : UserId) (mpId : DocId) (mp : MarketPrice)
    (side : Side) (amt : Int) (acts : TradingPage.TradeRequestActions)
    (h : TradingPage.executeTrade (some uid) mpId mp side amt = .ok acts) :
    (side = .hit →
      acts.tradeReq.buyerId = mp.userId ∧ acts.tradeReq.sellerId = uid ∧
      acts.tradeReq.price = mp.bidPrice ∧ amt ≤ mp.bidAmount ∧
      (amt < mp.bidAmount → acts.quoteUpdate.bidAmount = mp.bidAmount - amt)) ∧
    (side = .lift →
      acts.tradeReq.buyerId = uid ∧ acts.tradeReq.sellerId = mp.userId ∧
      acts.tradeReq.price = mp.offerPrice ∧ amt ≤ mp.offerAmount ∧
      (amt < mp.offerAmount → acts.quoteUpdate.offerAmount = mp.offerAmount - amt)) := by
  cases side with
  | hit =>
    refine ⟨fun _ => ?_, fun hl => Side.noConfusion hl⟩
    simp only [TradingPage.executeTrade] at h
    split_ifs at h with h1 h2 h3 <;>
      first
        | (simp at h; done)
        | (rw [Except.ok.injEq] at h; subst h;
           refine ⟨rfl, rfl, rfl, by omega, fun hlt => ?_⟩;
           rfl)
        | (rw [Except.ok.injEq] at h; subst h;
           refine ⟨rfl, rfl, rfl, by omega, fun hlt => ?_⟩;
           exact absurd hlt (by omega))
  | lift =>
    refine ⟨fun hl => Side.noConfusion hl, fun _ => ?_⟩
    simp only [TradingPage.executeTrade] at h
    split_ifs at h with h1 h2 h3 <;>
      first
        | (simp at h; done)
        | (rw [Except.ok.injEq] at h; subst h;
           refine ⟨rfl, rfl, rfl, by omega, fun hlt => ?_⟩;
           rfl)
        | (rw [Except.ok.injEq] at h; subst h;
           refine ⟨rfl, rfl, rfl, by omega, fun hlt => ?_⟩;
           exact absurd hlt (by omega))

/-- The actions the page-level `executeTrade` produces when user Y hits X's
resting bid for 4 units. -/
def actsYhit4 : TradingPage.TradeRequestActions :=
  { quoteUpdate := { quoteX with bidAmount := 6 },
    tradeReq := { symbol := "NVDA", price := 100, amount := 4, buyerId := "X",
                  sellerId := "Y", marketPriceId := 1, side := .hit } }

/-- C1 witness: user Y hits X's bid for 4 units; the produced trade has X as
buyer, Y as seller, price 100, and the staged quote update reduces
`bidAmount` to 6. -/
theorem C1_side_role_mapping_witness :
    actsYhit4.tradeReq.buyerId = quoteX.userId ∧ actsYhit4.tradeReq.sellerId = "Y" ∧
    actsYhit4.tradeReq.price = quoteX.bidPrice ∧
    actsYhit4.quoteUpdate.bidAmount = quoteX.bidAmount - 4 := by
  have h := (C1_side_role_mapping "Y" 1 quoteX .hit 4 actsYhit4 (by rfl)).1 rfl
  exact ⟨h.1, h.2.1, h.2.2.1, h.2.2.2.2 (by decide)⟩

/-- C2, evaluated at its failing input (user Z lifts X's full remaining
offer of 10): the page-level flow first commits the quote mutation
(`status` becomes `executed`) through its own `updateMarketPrice` call,
and the subsequent `tradingService.executeTrade` transaction then aborts
as stale, so the Trade append and both trade-history appends never
happen — the four writes do not commit as a unit. -/
theorem C2_full_fill_commits_quote_without_trade :
    (TradingPage.executeTradeFlow (some "Z") 1 quoteX .lift 10 storeX 7).2 =
      some (.trade .staleQuoteInactive) ∧
    getDocIn (TradingPage.executeTradeFlow (some "Z") 1 quoteX .lift 10 storeX 7).1.marketPrices 1 =
      some { quoteX with status := .executed, timestamp := 7 } ∧
    (TradingPage.executeTradeFlow (some "Z") 1 quoteX .lift 10 storeX 7).1.trades = [] ∧
    (TradingPage.executeTradeFlow (some "Z") 1 quoteX .lift 10 storeX 7).1.userTrades = [] :=
  ⟨rfl, rfl, rfl, rfl⟩

/-- A trade request for 25 units against quote 1, whose lift side offers
only 10: used to refute the claimed commit-time amount validation. -/
def overReq : TradeReq :=
  { symbol := "NVDA", price := 105, amount := 25, buyerId := "Z", sellerId := "X",
    marketPriceId := 1, side := .lift }

/-- C3 counterexample: a call to the transactional `executeTrade` whose
requested amount (25) strictly exceeds the matched side's available amount
at commit time (10) does not fail with `InvalidAmount`: it succeeds and
appends a trade — the transaction body performs no amount validation. -/
theorem C3_counterexample :
    getDocIn storeX.marketPrices overReq.marketPriceId = some quoteX ∧
    TradingService.availableFor overReq.side quoteX < overReq.amount ∧
    (TradingService.executeTrade storeX overReq 5).isOk = true ∧
    (TradingService.runExecuteTrade storeX overReq 5).trades.length = 1 :=
  ⟨rfl, by decide, rfl, rfl⟩

/-- C3 as amended: the 0 < amount ≤ available validation is performed
client-side by the page-level `executeTrade` against the snapshot the
requester observed (not at commit time), rejecting before any storage
call; a request only reaches the storage layer when
`0 < amount ≤ available` holds of that snapshot. -/
theorem C3_amended_snapshot_validation (uid : UserId) (mpId : DocId) (mp : MarketPrice)
    (side : Side) (amt : Int) :
    (amt ≤ 0 →
      TradingPage.executeTrade (some uid) mpId mp side amt = .error .nonPositiveAmount) ∧
    (0 < amt → TradingService.availableFor side mp < amt →
      TradingPage.executeTrade (some uid) mpId mp side amt = .error .exceedsAvailable) ∧
    (∀ acts, TradingPage.executeTrade (some uid) mpId mp side amt = .ok acts →
      0 < amt ∧ amt ≤ TradingService.availableFor side mp) := by
  cases side with
  | hit =>
    refine ⟨fun h0 => ?_, fun hpos hav => ?_, fun acts h => ?_⟩
    · simp only [TradingPage.executeTrade]
      rw [if_pos h0]
    · have hav2 : amt > mp.bidAmount := by
        simpa [TradingService.availableFor] using hav
      simp only [TradingPage.executeTrade]
      rw [if_neg (by omega), if_pos hav2]
    · simp only [TradingPage.executeTrade] at h
      split_ifs at h with h1 h2 h3 <;>
        first
          | (simp at h; done)
          | (exact ⟨by omega, by simp only [TradingService.availableFor]; omega⟩)
  | lift =>
    refine ⟨fun h0 => ?_, fun hpos hav => ?_, fun acts h => ?_⟩
    · simp only [TradingPage.executeTrade]
      rw [if_pos h0]
    · have hav2 : amt > mp.offerAmount := by
        simpa [TradingService.availableFor] using hav
      simp only [TradingPage.executeTrade]
      rw [if_neg (by omega), if_pos hav2]
    · simp only [TradingPage.executeTrade] at h
      split_ifs at h with h1 h2 h3 <;>
        first
          | (simp at h; done)
          | (exact ⟨by omega, by simp only [TradingService.availableFor]; omega⟩)

/-- C3 amended witness: the page-level `executeTrade` rejects Z's attempt
to lift 25 units when the snapshot offers only 10. -/
theorem C3_amended_snapshot_validation_witness :
    TradingPage.executeTrade (some "Z") 1 quoteX .lift 25 = .error .exceedsAvailable :=
  (C3_amended_snapshot_validation "Z" 1 quoteX .lift 25).2.1 (by decide) (by decide)

/-- A trade request lifting exactly the 10 units quote 1 has on offer. -/
def fullLiftReq : TradeReq :=
  { symbol := "NVDA", price := 105, amount := 10, buyerId := "Z", sellerId := "X",
    marketPriceId := 1, side := .lift }

/-- C4 counterexample: a full fill (requested amount = available = 10)
through the transactional `executeTrade` sets `status` to `executed` but
leaves the matched side's amount field at 10 — it is not set to 0 as the
claim (via Scenario B) states. -/
theorem C4_counterexample :
    fullLiftReq.amount = TradingService.availableFor fullLiftReq.side quoteX ∧
    (TradingService.executeTrade storeX fullLiftReq 5).isOk = true ∧
    (getDocIn (TradingService.runExecuteTrade storeX fullLiftReq 5).marketPrices 1).map
      MarketPrice.status = some .executed ∧
    (getDocIn (TradingService.runExecuteTrade storeX fullLiftReq 5).marketPrices 1).map
      MarketPrice.offerAmount = some 10 ∧
    ¬ (getDocIn (TradingService.runExecuteTrade storeX fullLiftReq 5).marketPrices 1).map
      MarketPrice.offerAmount = some 0 :=
  ⟨rfl, rfl, rfl, rfl, by decide⟩

/-- C4 as amended: on a successful transactional `executeTrade` against an
active quote, a requested amount strictly below the available amount
leaves the quote active with the matched side's amount reduced to
`available - requested`; a requested amount equal to the available amount
sets `status` to `executed` while leaving the matched side's amount field
unchanged (not zeroed). -/
theorem C4_amended_fill_update (st : Store) (tr : TradeReq) (now : Nat)
    (mp : MarketPrice) (st2 : Store)
    (hget : getDocIn st.marketPrices tr.marketPriceId = some mp)
    (hok : TradingService.executeTrade st tr now = .ok st2) :
    mp.status = .active ∧
    (tr.amount < TradingService.availableFor tr.side mp →
      getDocIn st2.marketPrices tr.marketPriceId =
        some (match tr.side with
          | .hit =>
            { mp with
              bidAmount := mp.bidAmount - tr.amount,
              timestamp := now, lastTradeId := some st.nextId }
          | .lift =>
            { mp with
              offerAmount := mp.offerAmount - tr.amount,
              timestamp := now, lastTradeId := some st.nextId })) ∧
    (tr.amount = TradingService.availableFor tr.side mp →
      getDocIn st2.marketPrices tr.marketPriceId =
        some { mp with
               status := .executed, timestamp := now,
               executedTradeId := some st.nextId }) := by
  unfold TradingService.executeTrade at hok
  rw [hget] at hok
  simp only [] at hok
  split_ifs at hok with hact
  · rw [Except.ok.injEq] at hok
    subst hok
    have hs : (getDocIn st.marketPrices tr.marketPriceId).isSome := by rw [hget]; rfl
    have hmem := getDocIn_setDocIn st.marketPrices tr.marketPriceId
      (TradingService.updatedQuote mp tr.side tr.amount st.nextId now) hs
    refine ⟨hact, fun hlt => ?_, fun heq => ?_⟩
    · simp only [TradingService.committedStore]
      rw [hmem]
      congr 1
      unfold TradingService.updatedQuote
      rw [if_pos (by omega)]
      cases tr.side <;> rfl
    · simp only [TradingService.committedStore]
      rw [hmem]
      congr 1
      unfold TradingService.updatedQuote
      rw [if_neg (by omega)]

/-- A partial lift of 4 of the 10 offered units of quote 1. -/
def liftReq4 : TradeReq :=
  { symbol := "NVDA", price := 105, amount := 4, buyerId := "Y", sellerId := "X",
    marketPriceId := 1, side := .lift }

/-- C4 amended witness: lifting 4 of the 10 offered units leaves the quote
with `offerAmount = 6`, a fresh timestamp and the trade back-reference. -/
theorem C4_amended_fill_update_witness :
    getDocIn (TradingService.committedStore storeX liftReq4 quoteX 5).marketPrices 1 =
      some { quoteX with offerAmount := 6, timestamp := 5, lastTradeId := some 2 } := by
  have h := (C4_amended_fill_update storeX liftReq4 5 quoteX
    (TradingService.committedStore storeX liftReq4 quoteX 5) rfl rfl).2.1 (by decide)
  exact h.trans (by decide)

/-- C5: a transactional `executeTrade` whose target quote is missing or no
longer `active` at the transaction's re-read fails with a stale-quote
error and leaves the store exactly as it was — no trade is recorded and
no quote field is modified. -/
theorem C5_stale_quote_rejected (st : Store) (tr : TradeReq) (now : Nat)
    (h : getDocIn st.marketPrices tr.marketPriceId = none ∨
         ∃ mp, getDocIn st.marketPrices tr.marketPriceId = some mp ∧ mp.status ≠ .active) :
    (∃ e, TradingService.executeTrade st tr now = .error e) ∧
    TradingService.runExecuteTrade st tr now = st := by
  have herr : ∃ e, TradingService.executeTrade st tr now = .error e := by
    rcases h with h | ⟨mp, hmp, hstat⟩
    · refine ⟨.staleQuoteMissing, ?_⟩
      unfold TradingService.executeTrade
      rw [h]
    · refine ⟨.staleQuoteInactive, ?_⟩
      unfold TradingService.executeTrade
      rw [hmp]
      exact if_neg hstat
  obtain ⟨e, he⟩ := herr
  refine ⟨⟨e, he⟩, ?_⟩
  unfold TradingService.runExecuteTrade
  rw [he]

/-- User X's quote after being canceled. -/
def quoteCanceledX : MarketPrice := { quoteX with status := .canceled }

/-- A store holding only the canceled quote. -/
def storeCanceledX : Store :=
  { marketPrices := [(1, quoteCanceledX)], trades := [], userTrades := [], nextId := 2 }

/-- C5 witness: an attempt to lift a canceled quote leaves the store
untouched. -/
theorem C5_stale_quote_rejected_witness :
    TradingService.runExecuteTrade storeCanceledX liftReq4 5 = storeCanceledX :=
  (C5_stale_quote_rejected storeCanceledX liftReq4 5
    (Or.inr ⟨quoteCanceledX, rfl, by decide⟩)).2

/-- User X's quote after being fully executed. -/
def quoteExecutedX : MarketPrice := { quoteX with status := .executed }

/-- A store holding only the executed quote. -/
def storeExecutedX : Store :=
  { marketPrices := [(1, quoteExecutedX)], trades := [], userTrades := [], nextId := 2 }

/-- C6 counterexample: `cancelMarketPrice` on a quote already in the
terminal state `executed` is not a no-op — it changes the quote's status
to `canceled`. -/
theorem C6_counterexample :
    quoteExecutedX.status = .executed ∧
    ((TradingService.cancelMarketPrice storeExecutedX 1 9).toOption.bind
      (fun st => (getDocIn st.marketPrices 1).map MarketPrice.status)) = some .canceled :=
  ⟨rfl, rfl⟩

/-- C6 as amended: `cancelMarketPrice` unconditionally overwrites the
status of any existing quote with `canceled` and refreshes its timestamp,
whatever its current status; an active quote transitions to `canceled`,
but a quote already in a terminal state is overwritten the same way
rather than left unchanged. All other fields are untouched. -/
theorem C6_amended_unconditional_cancel (st : Store) (i : DocId) (now : Nat)
    (mp : MarketPrice) (h : getDocIn st.marketPrices i = some mp) :
    TradingService.cancelMarketPrice st i now =
      .ok { st with
            marketPrices := setDocIn st.marketPrices i
              { mp with status := .canceled, timestamp := now } } := by
  unfold TradingService.cancelMarketPrice
  rw [h]

/-- C6 amended witness: canceling the executed quote rewrites it to
`canceled` with the fresh timestamp. -/
theorem C6_amended_unconditional_cancel_witness :
    TradingService.cancelMarketPrice storeExecutedX 1 9 =
      .ok { storeExecutedX with
            marketPrices := setDocIn storeExecutedX.marketPrices 1
              { quoteExecutedX with status := .canceled, timestamp := 9 } } :=
  C6_amended_unconditional_cancel storeExecutedX 1 9 quoteExecutedX rfl

/-- The quote form X fills in: bid 100 x 10, offer 105 x 10 on NVDA. -/
def formX10 : TradingPage.MarketPriceFormData :=
  { symbol := "NVDA", bidPrice := 100, bidAmount := 10, offerPrice := 105, offerAmount := 10 }

/-- A fresh Trading-page session over an empty book. -/
def emptyPage : TradingPage.PageState :=
  { currentQuote := none,
    store := { marketPrices := [], trades := [], userTrades := [], nextId := 1 } }

/-- C7 counterexample: submit a quote, click "new quote" (which clears the
tracked id without canceling anything), submit again — the book now holds
two `active` quotes for the same `(ownerId, symbol)` pair. -/
theorem C7_counterexample :
    (TradingPage.activeQuotesOf "X" "NVDA"
      (TradingPage.pageRun "X" emptyPage
        [.submit formX10 1, .newQuote, .submit formX10 2]).store).length = 2 := rfl

/-- C7 as amended: while the page is tracking an existing quote id
(`currentQuote` non-null), submission updates that document in place — it
creates no new document id and leaves the id counter alone; the
uniqueness of the active quote can only be broken through the untracked
path. -/
theorem C7_amended_tracked_update_in_place (ps : TradingPage.PageState) (uid : UserId)
    (form : TradingPage.MarketPriceFormData) (now : Nat) (qid : DocId)
    (h : ps.currentQuote = some qid) :
    ((TradingPage.handleSubmit ps (some uid) form now).1.store.marketPrices.map Prod.fst =
      ps.store.marketPrices.map Prod.fst) ∧
    (TradingPage.handleSubmit ps (some uid) form now).1.store.nextId = ps.store.nextId := by
  by_cases c1 : form.symbol = "" ∨ form.bidPrice ≤ 0 ∨ form.offerPrice ≤ 0 <;>
  by_cases c2 : form.bidPrice ≥ form.offerPrice <;>
  by_cases c3 : form.bidPrice ≥
      TradingPage.lowestOf TradingPage.numberMaxValue
        (TradingPage.otherActiveOfferPrices uid ps.store) <;>
  by_cases c4 : form.offerPrice ≤
      TradingPage.highestOf 0 (TradingPage.otherActiveBidPrices uid ps.store) <;>
  cases hg : getDocIn ps.store.marketPrices qid <;>
  simp [TradingPage.handleSubmit, c1, c2, c3, c4, h, hg,
    TradingService.updateMarketPrice, setDocIn_map_fst]

/-- A page session tracking X's stored quote 1. -/
def trackedPage : TradingPage.PageState := { currentQuote := some 1, store := storeX }

/-- C7 amended witness: resubmitting while quote 1 is tracked keeps the
book's document ids and the id counter unchanged. -/
theorem C7_amended_tracked_update_in_place_witness :
    ((TradingPage.handleSubmit trackedPage (some "X") formX10 3).1.store.marketPrices.map
        Prod.fst = trackedPage.store.marketPrices.map Prod.fst) ∧
    (TradingPage.handleSubmit trackedPage (some "X") formX10 3).1.store.nextId =
      trackedPage.store.nextId :=
  C7_amended_tracked_update_in_place trackedPage "X" formX10 3 1 rfl

/-- C8: a submission whose bid is not strictly below its offer — or whose
bid or offer is non-positive — is rejected by `handleSubmit`'s validation
with an error, and the page state (in particular the book) is completely
untouched: the rejection happens before any write. -/
theorem C8_submit_rejects_bid_ge_offer (ps : TradingPage.PageState) (uid : UserId)
    (form : TradingPage.MarketPriceFormData) (now : Nat)
    (h : form.bidPrice ≥ form.offerPrice ∨ form.bidPrice ≤ 0 ∨ form.offerPrice ≤ 0) :
    (TradingPage.handleSubmit ps (some uid) form now).1 = ps ∧
    ∃ e, (TradingPage.handleSubmit ps (some uid) form now).2 = some e := by
  simp only [TradingPage.handleSubmit]
  split_ifs with h1 h2 h3 h4 <;>
    first
      | exact ⟨rfl, _, rfl⟩
      | (exfalso
         push_neg at h1
         obtain ⟨hs, hb, ho⟩ := h1
         rcases h with h | h | h <;> omega)

/-- The crossed form used against C8: bid 105 is not below offer 100. -/
def crossedForm : TradingPage.MarketPriceFormData :=
  { symbol := "NVDA", bidPrice := 105, bidAmount := 10, offerPrice := 100, offerAmount := 10 }

/-- C8 witness: submitting bid 105 / offer 100 leaves the page state
untouched. -/
theorem C8_submit_rejects_bid_ge_offer_witness :
    (TradingPage.handleSubmit emptyPage (some "X") crossedForm 3).1 = emptyPage :=
  (C8_submit_rejects_bid_ge_offer emptyPage "X" crossedForm 3 (Or.inl (by decide))).1

/-- C9: a submission whose offer is at or below some other party's active
positive resting bid, or whose bid is at or above some other party's
active positive resting offer (as observed in the page's book snapshot),
is rejected by `handleSubmit` with an error before any write: the page
state is returned untouched. -/
theorem C9_submit_rejects_crossing (ps : TradingPage.PageState) (uid : UserId)
    (form : TradingPage.MarketPriceFormData) (now : Nat)
    (h : (∃ p ∈ ps.store.marketPrices.map Prod.snd,
            p.status = .active ∧ p.userId ≠ uid ∧ 0 < p.bidPrice ∧
            form.offerPrice ≤ p.bidPrice) ∨
         (∃ p ∈ ps.store.marketPrices.map Prod.snd,
            p.status = .active ∧ p.userId ≠ uid ∧ 0 < p.offerPrice ∧
            p.offerPrice ≤ form.bidPrice)) :
    (TradingPage.handleSubmit ps (some uid) form now).1 = ps ∧
    ∃ e, (TradingPage.handleSubmit ps (some uid) form now).2 = some e := by
  simp only [TradingPage.handleSubmit]
  split_ifs with h1 h2 h3 h4 <;>
    first
      | exact ⟨rfl, _, rfl⟩
      | (exfalso
         rcases h with ⟨p, hp, ha, hu, hpos, hle⟩ | ⟨p, hp, ha, hu, hpos, hle⟩
         · exact h4 (le_trans hle (le_highestOf 0 p.bidPrice _
             (mem_otherActiveBidPrices uid ps.store p hp ha hu hpos)))
         · exact h3 (le_trans (lowestOf_le TradingPage.numberMaxValue p.offerPrice _
             (mem_otherActiveOfferPrices uid ps.store p hp ha hu hpos)) hle))

/-- User Y's Scenario C form: offer 100 against X's resting bid of 100. -/
def formYcrossC : TradingPage.MarketPriceFormData :=
  { symbol := "NVDA", bidPrice := 95, bidAmount := 10, offerPrice := 100, offerAmount := 10 }

/-- The page session of user Y observing X's resting quote. -/
def pageYview : TradingPage.PageState := { currentQuote := none, store := storeX }

/-- C9 witness (Scenario C): Y's offer of 100 against X's resting bid of
100 is rejected and the page state is untouched. -/
theorem C9_submit_rejects_crossing_witness :
    (TradingPage.handleSubmit pageYview (some "Y") formYcrossC 3).1 = pageYview :=
  (C9_submit_rejects_crossing pageYview "Y" formYcrossC 3
    (Or.inl ⟨quoteX, by decide, by decide, by decide, by decide, by decide⟩)).1

/-- C10: a partial fill committed by the transactional `executeTrade`
modifies only the matched side's amount (reduced by the trade amount),
the timestamp, and the `lastTradeId` back-reference; prices, the opposite
side's amount, owner, symbol, status and `executedTradeId` are all
unchanged. -/
theorem C10_partial_fill_frame (st : Store) (tr : TradeReq) (now : Nat)
    (mp : MarketPrice) (st2 : Store)
    (hget : getDocIn st.marketPrices tr.marketPriceId = some mp)
    (hok : TradingService.executeTrade st tr now = .ok st2)
    (hrem : tr.amount < TradingService.availableFor tr.side mp) :
    ∃ mp2, getDocIn st2.marketPrices tr.marketPriceId = some mp2 ∧
      mp2.bidPrice = mp.bidPrice ∧ mp2.offerPrice = mp.offerPrice ∧
      mp2.userId = mp.userId ∧ mp2.symbol = mp.symbol ∧ mp2.status = mp.status ∧
      mp2.executedTradeId = mp.executedTradeId ∧
      mp2.timestamp = now ∧ mp2.lastTradeId = some st.nextId ∧
      (tr.side = .hit →
        mp2.bidAmount = mp.bidAmount - tr.amount ∧ mp2.offerAmount = mp.offerAmount) ∧
      (tr.side = .lift →
        mp2.offerAmount = mp.offerAmount - tr.amount ∧ mp2.bidAmount = mp.bidAmount) := by
  unfold TradingService.executeTrade at hok
  rw [hget] at hok
  simp only [] at hok
  split_ifs at hok with hact
  rw [Except.ok.injEq] at hok
  subst hok
  have hs : (getDocIn st.marketPrices tr.marketPriceId).isSome := by rw [hget]; rfl
  refine ⟨TradingService.updatedQuote mp tr.side tr.amount st.nextId now, ?_, ?_⟩
  · simp only [TradingService.committedStore]
    exact getDocIn_setDocIn _ _ _ hs
  · unfold TradingService.updatedQuote
    rw [if_pos (by omega)]
    cases tr.side with
    | hit =>
      exact ⟨rfl, rfl, rfl, rfl, rfl, rfl, rfl, rfl,
        fun _ => ⟨rfl, rfl⟩, fun hl => Side.noConfusion hl⟩
    | lift =>
      exact ⟨rfl, rfl, rfl, rfl, rfl, rfl, rfl, rfl,
        fun hl => Side.noConfusion hl, fun _ => ⟨rfl, rfl⟩⟩

/-- C10 witness: the partial lift of 4 units leaves `offerAmount = 6` and
`bidPrice = 100` in the stored quote. -/
theorem C10_partial_fill_frame_witness :
    (getDocIn (TradingService.committedStore storeX liftReq4 quoteX 5).marketPrices
      liftReq4.marketPriceId).map MarketPrice.offerAmount = some 6 ∧
    (getDocIn (TradingService.committedStore storeX liftReq4 quoteX 5).marketPrices
      liftReq4.marketPriceId).map MarketPrice.bidPrice = some 100 := by
  obtain ⟨mp2, hg, hbp, hop, hu, hsym, hst, hex, ht, hlast, hhit, hlift⟩ :=
    C10_partial_fill_frame storeX liftReq4 5 quoteX
      (TradingService.committedStore storeX liftReq4 quoteX 5) rfl rfl (by decide)
  rw [hg]
  refine ⟨?_, ?_⟩
  · show some mp2.offerAmount = some (6 : Int)
    rw [(hlift rfl).1]
    decide
  · show some mp2.bidPrice = some (100 : Int)
    rw [hbp]
    decide
